import Mathlib

/-!
Shallow embedding of `src/Inicio.py` (batch IVA extraction tool) and
verification of its specified properties.

The core of the program is `process_all_invoices` (Inicio.py lines 66-99):
it enumerates PDF files, calls the extraction client once per file, catches
per-item exceptions, records per-item outcome dicts keyed by filename, and
emits progress notifications.  `create_summary_table` (lines 101-111) and the
`combined_text` builder (lines 214-222) are the two exporters; lines 298-307
handle an ad-hoc uploaded file.

Modelling choices:
  * The Python dict `results` is an association list `List (String × Outcome)`
    with Python dict insertion semantics (`dictInsert`): assigning to an
    existing key updates it in place, a new key is appended.
  * The extraction client `extract_iva_from_pdf` may raise; it is modelled as
    a function `String → Except String String` from the PDF path to either
    the model answer (`ok`) or the exception message (`error`).
  * `datetime.now()` is modelled as an oracle `ts : Nat → String` giving the
    timestamp string observed while processing the file at each index.
  * Streamlit progress calls (`status_text.text`, `progress_bar.progress`)
    and dict insertions are recorded in an event trace (`Event`) in the order
    the statements execute.
-/

namespace Inicio

/-- The `status` field of an outcome dict: the string `'success'` or
`'error'` (Inicio.py lines 83 and 89). -/
inductive Status where
  | success
  | error
deriving DecidableEq, Repr

/-- The string stored in the `status` field. -/
def Status.toStr : Status → String
  | .success => "success"
  | .error => "error"

/-- One per-file outcome dict: `{'status': ..., 'data': ..., 'timestamp': ...}`
(Inicio.py lines 82-86 and 88-92).  Exactly three fields. -/
structure Outcome where
  status : Status
  data : String
  timestamp : String
deriving DecidableEq, Repr

/-- The extraction client `extract_iva_from_pdf(pdf_path, api_key)`:
given the PDF path it either returns the model answer text or raises
(modelled as `Except.error` carrying `str(e)`).  The `api_key` argument is
absorbed into the function. -/
abbrev Extractor := String → Except String String

/-- `str(pdf_path)` for a file `name` found by `Path(folder).glob("*.pdf")`:
the folder path joined with the filename. -/
def pdfPath (folder name : String) : String := folder ++ "/" ++ name

/-- The body of the per-file `try/except` in `process_all_invoices`
(Inicio.py lines 80-92): call the extractor on the file path; on success
record `{'status': 'success', 'data': result, 'timestamp': now}`, on any
exception record `{'status': 'error', 'data': 'Error: ' + str(e),
'timestamp': now}`. -/
def processFile (extract : Extractor) (tsNow : String) (folder name : String) : Outcome :=
  match extract (pdfPath folder name) with
  | Except.ok r => ⟨Status.success, r, tsNow⟩
  | Except.error e => ⟨Status.error, "Error: " ++ e, tsNow⟩

/-- Python dict assignment `results[key] = value` on an insertion-ordered
dict: an existing key is updated in place, a new key is appended. -/
def dictInsert (d : List (String × Outcome)) (k : String) (v : Outcome) :
    List (String × Outcome) :=
  if d.any (fun p => p.1 = k) then
    d.map (fun p => if p.1 = k then (k, v) else p)
  else d ++ [(k, v)]

/-- Observable events of one iteration of the loop in `process_all_invoices`,
in statement order: the `status_text.text(...)` progress notification
(carrying filename, 1-based index and total), the dict insertion of the
outcome, and the `progress_bar.progress((idx+1)/len)` update. -/
inductive Event where
  | statusText (name : String) (idx total : Nat)
  | insertOutcome (name : String) (o : Outcome)
  | progressBar (idx total : Nat)
deriving DecidableEq, Repr

/-- The `for idx, pdf_path in enumerate(pdf_files)` loop of
`process_all_invoices` (Inicio.py lines 77-94), threading the `results`
dict and returning it together with the emitted event trace. -/
def runLoop (extract : Extractor) (ts : Nat → String) (folder : String) (total : Nat) :
    List (Nat × String) → List (String × Outcome) → List (String × Outcome) × List Event
  | [], results => (results, [])
  | (idx, name) :: rest, results =>
    let o := processFile extract (ts idx) folder name
    let r := runLoop extract ts folder total rest (dictInsert results name o)
    (r.1, Event.statusText name (idx + 1) total ::
          Event.insertOutcome name o ::
          Event.progressBar (idx + 1) total :: r.2)

/-- `process_all_invoices(folder_path, api_key)` (Inicio.py lines 66-99):
if no PDF files are found return `None`, otherwise run the loop starting
from an empty dict and return the results dict.  `pdf_files` is the list of
filenames enumerated by `Path(folder_path).glob("*.pdf")`. -/
def process_all_invoices (extract : Extractor) (ts : Nat → String) (folder : String)
    (pdf_files : List String) : Option (List (String × Outcome)) :=
  if pdf_files.isEmpty then none
  else some (runLoop extract ts folder pdf_files.length pdf_files.enum []).1

/-- The event trace emitted by one call of `process_all_invoices`
(empty when the early `return None` is taken, since the progress widgets
are created only after that check). -/
def runEvents (extract : Extractor) (ts : Nat → String) (folder : String)
    (pdf_files : List String) : List Event :=
  (runLoop extract ts folder pdf_files.length pdf_files.enum []).2

/-- One row of the summary table: the dict appended per result in
`create_summary_table` (Inicio.py lines 104-110), with its four columns. -/
structure Row where
  factura : String
  estado : String
  fecha_procesamiento : String
  resultado : String
deriving DecidableEq, Repr

/-- `create_summary_table(results)` (Inicio.py lines 101-111): iterate
`results.items()` in insertion order, appending one row per outcome with
columns Factura, Estado, Fecha Procesamiento, Resultado. -/
def create_summary_table (results : List (String × Outcome)) : List Row :=
  results.foldl
    (fun summary p =>
      summary ++ [⟨p.1, p.2.status.toStr, p.2.timestamp, p.2.data⟩]) []

/-- An 80-character separator line, `"="*80` or `"-"*80`. -/
def sepLine (c : Char) : String := String.mk (List.replicate 80 c)

/-- `combined_text` (Inicio.py lines 214-222): header with the run's
`processed_at` timestamp and an `=` separator, then for each
`filename, result in results.items()` the filename, status, a `-`
separator, the payload and a closing `=` separator. -/
def combined_text (processed_at : String) (results : List (String × Outcome)) : String :=
  let t0 := "EXTRACCIÓN DE BASES DE IVA\nFecha: " ++ processed_at ++ "\n\n"
  let t1 := t0 ++ sepLine '=' ++ "\n\n"
  results.foldl
    (fun t p =>
      t ++ ("FACTURA: " ++ p.1 ++ "\n")
        ++ ("Estado: " ++ p.2.status.toStr ++ "\n")
        ++ (sepLine '-' ++ "\n")
        ++ (p.2.data ++ "\n")
        ++ (sepLine '=' ++ "\n\n")) t1

/-- The header block of `combined_text`. -/
def reportHeader (processed_at : String) : String :=
  "EXTRACCIÓN DE BASES DE IVA\nFecha: " ++ processed_at ++ "\n\n"
    ++ sepLine '=' ++ "\n\n"

/-- The per-outcome section of `combined_text`. -/
def entrySection (p : String × Outcome) : String :=
  ("FACTURA: " ++ p.1 ++ "\n")
    ++ ("Estado: " ++ p.2.status.toStr ++ "\n")
    ++ (sepLine '-' ++ "\n")
    ++ (p.2.data ++ "\n")
    ++ (sepLine '=' ++ "\n\n")

/-- Label of one result tab (Inicio.py lines 270-271): the filename
truncated to 30 characters with an ellipsis when longer. -/
def tabLabel (name : String) : String :=
  if name.length > 30 then "📄 " ++ (name.take 30) ++ "..." else "📄 " ++ name

/-- The result tabs (Inicio.py lines 270-273): one tab per key of
`results`, in the dict's iteration order. -/
def resultTabs (results : List (String × Outcome)) : List String :=
  results.map (fun p => tabLabel p.1)

/-- The file system visible to the uploaded-file handler: paths mapped to
byte contents. -/
abbrev FileSystem := List (String × List Nat)

/-- `open(temp_path, "wb"); f.write(...)`: create the file at `path` with
the given bytes, or truncate and overwrite it if it already exists. -/
def fsWrite : FileSystem → String → List Nat → FileSystem
  | [], path, content => [(path, content)]
  | q :: rest, path, content =>
    if q.1 = path then (path, content) :: rest else q :: fsWrite rest path content

/-- Look up the contents of a file. -/
def fsRead (fs : FileSystem) (path : String) : Option (List Nat) :=
  (fs.find? (fun p => p.1 = path)).map (fun p => p.2)

/-- The uploaded-file branch (Inicio.py lines 298-307): save the uploaded
buffer under `Path(PDF_FOLDER) / uploaded_file.name`, then call
`extract_iva_from_pdf(str(temp_path), api_key)` — the same extractor the
batch runner uses, on the saved path. -/
def handle_uploaded_file (extract : Extractor) (fs : FileSystem)
    (folder name : String) (content : List Nat) :
    FileSystem × Except String String :=
  let temp_path := pdfPath folder name
  let fs2 := fsWrite fs temp_path content
  (fs2, extract temp_path)

/-- The 1-based indices carried by the `status_text` progress notifications
of a trace, in emission order. -/
def statusIndices (tr : List Event) : List Nat :=
  tr.filterMap (fun ev =>
    match ev with
    | Event.statusText _ idx _ => some idx
    | _ => none)

/-- The three events one loop iteration emits for the enumerated item `p`. -/
def itemEvents (extract : Extractor) (ts : Nat → String) (folder : String) (total : Nat)
    (p : Nat × String) : List Event :=
  [Event.statusText p.2 (p.1 + 1) total,
   Event.insertOutcome p.2 (processFile extract (ts p.1) folder p.2),
   Event.progressBar (p.1 + 1) total]

/-- The results dict built over distinct filenames: one entry per
enumerated file, in enumeration order. -/
def batchResults (extract : Extractor) (ts : Nat → String) (folder : String)
    (pdf_files : List String) : List (String × Outcome) :=
  pdf_files.enum.map (fun p => (p.2, processFile extract (ts p.1) folder p.2))

/-- Concatenation of a list of report sections, in order. -/
def concatAll : List String → String
  | [] => ""
  | s :: rest => s ++ concatAll rest

/-- A concrete extraction client used to evaluate the theorems: raises on
`facturas/b.pdf`, answers on every other path. -/
def sampleExtract : Extractor := fun path =>
  if path = "facturas/b.pdf" then Except.error "timeout" else Except.ok "IVA 19%"

/-- A concrete extraction client that raises on every call. -/
def failingExtract : Extractor := fun _ => Except.error "invalid x-api-key"

/-- A concrete timestamp oracle used to evaluate the theorems. -/
def sampleTs : Nat → String := fun i => "2026-10-12 00:00:0" ++ toString i

/-- A concrete results dict used to evaluate the theorems. -/
def sampleResults : List (String × Outcome) :=
  [("a.pdf", ⟨Status.success, "IVA 19%", "2026-10-12 00:00:01"⟩),
   ("b.pdf", ⟨Status.error, "Error: timeout", "2026-10-12 00:00:02"⟩)]

end Inicio

namespace Inicio

/-! ### Structural lemmas about the batch loop -/

/-- Assigning a fresh key to the results dict appends the entry. -/
lemma dictInsert_of_not_mem {d : List (String × Outcome)} {k : String} (v : Outcome)
    (h : k ∉ d.map Prod.fst) : dictInsert d k v = d ++ [(k, v)] := by
  have hany : d.any (fun p => p.1 = k) = false := by
    rw [List.any_eq_false]
    intro p hp hpk
    have hk : p.1 = k := by simpa using hpk
    exact h (hk ▸ List.mem_map_of_mem Prod.fst hp)
  simp [dictInsert, hany]

/-- The results dict the loop builds: the accumulator followed by one entry
per remaining item, provided all keys are distinct. -/
lemma runLoop_fst (extract : Extractor) (ts : Nat → String) (folder : String) (total : Nat)
    (l : List (Nat × String)) :
    ∀ acc : List (String × Outcome),
      (acc.map Prod.fst ++ l.map Prod.snd).Nodup →
      (runLoop extract ts folder total l acc).1
        = acc ++ l.map (fun p => (p.2, processFile extract (ts p.1) folder p.2)) := by
  induction l with
  | nil => intro acc h; simp [runLoop]
  | cons q rest ih =>
    intro acc h
    obtain ⟨idx, name⟩ := q
    have hnotmem : name ∉ acc.map Prod.fst := by
      rw [List.nodup_append] at h
      exact fun hmem => h.2.2 hmem (by simp)
    have hstep : dictInsert acc name (processFile extract (ts idx) folder name)
        = acc ++ [(name, processFile extract (ts idx) folder name)] :=
      dictInsert_of_not_mem _ hnotmem
    have h2 : ((acc ++ [(name, processFile extract (ts idx) folder name)]).map Prod.fst
        ++ rest.map Prod.snd).Nodup := by
      simpa [List.append_assoc] using h
    calc (runLoop extract ts folder total ((idx, name) :: rest) acc).1
        = (runLoop extract ts folder total rest
            (dictInsert acc name (processFile extract (ts idx) folder name))).1 := by
          simp [runLoop]
      _ = acc ++ ((idx, name) :: rest).map
            (fun p => (p.2, processFile extract (ts p.1) folder p.2)) := by
          rw [hstep, ih _ h2]; simp

/-- The event trace the loop emits: three events per item, in item order. -/
lemma runLoop_snd (extract : Extractor) (ts : Nat → String) (folder : String) (total : Nat)
    (l : List (Nat × String)) :
    ∀ acc : List (String × Outcome),
      (runLoop extract ts folder total l acc).2
        = l.flatMap (itemEvents extract ts folder total) := by
  induction l with
  | nil => intro acc; simp [runLoop]
  | cons q rest ih =>
    intro acc
    obtain ⟨idx, name⟩ := q
    simp [runLoop, itemEvents, ih]

/-- On a non-empty list of distinct filenames, `process_all_invoices`
returns exactly `batchResults`. -/
lemma process_eq (extract : Extractor) (ts : Nat → String) (folder : String)
    {pdf_files : List String} (hne : pdf_files ≠ []) (hnd : pdf_files.Nodup) :
    process_all_invoices extract ts folder pdf_files
      = some (batchResults extract ts folder pdf_files) := by
  obtain ⟨a, l, rfl⟩ := List.exists_cons_of_ne_nil hne
  have h0 : (([] : List (String × Outcome)).map Prod.fst
      ++ (a :: l).enum.map Prod.snd).Nodup := by
    simpa [List.enum_map_snd] using hnd
  simp only [process_all_invoices, List.isEmpty_cons, Bool.false_eq_true, if_false,
    batchResults]
  rw [runLoop_fst _ _ _ _ _ _ h0]
  simp

lemma batchResults_map_fst (extract : Extractor) (ts : Nat → String) (folder : String)
    (pdf_files : List String) :
    (batchResults extract ts folder pdf_files).map Prod.fst = pdf_files := by
  unfold batchResults
  rw [List.map_map]
  have hcomp : (Prod.fst ∘ fun p : Nat × String =>
      (p.2, processFile extract (ts p.1) folder p.2)) = Prod.snd := rfl
  rw [hcomp, List.enum_map_snd]

lemma batchResults_length (extract : Extractor) (ts : Nat → String) (folder : String)
    (pdf_files : List String) :
    (batchResults extract ts folder pdf_files).length = pdf_files.length := by
  simp [batchResults, List.enum_length]

lemma batchResults_getElem? (extract : Extractor) (ts : Nat → String) (folder : String)
    (pdf_files : List String) {i : Nat} (h : i < pdf_files.length) :
    (batchResults extract ts folder pdf_files)[i]?
      = some (pdf_files[i], processFile extract (ts i) folder pdf_files[i]) := by
  have he : pdf_files.enum[i]? = some (i, pdf_files[i]) := by
    rw [List.getElem?_eq_getElem (by simpa [List.enum_length] using h)]
    rw [List.getElem_enum]
  simp [batchResults, List.getElem?_map, he]

lemma batchResults_mem (extract : Extractor) (ts : Nat → String) (folder : String)
    (pdf_files : List String) {p : String × Outcome}
    (hp : p ∈ batchResults extract ts folder pdf_files) :
    ∃ i, ∃ h : i < pdf_files.length,
      p = (pdf_files[i], processFile extract (ts i) folder pdf_files[i]) := by
  unfold batchResults at hp
  obtain ⟨q, hq, rfl⟩ := List.mem_map.mp hp
  obtain ⟨i, x⟩ := q
  obtain ⟨hi, hx⟩ := List.mem_enum hq
  exact ⟨i, hi, by simp [hx]⟩

end Inicio

namespace Inicio

/-! ### Structural lemmas about the exporters -/

lemma create_summary_table_aux (results : List (String × Outcome)) :
    ∀ acc : List Row,
      results.foldl (fun summary p =>
        summary ++ [⟨p.1, p.2.status.toStr, p.2.timestamp, p.2.data⟩]) acc
      = acc ++ results.map
          (fun p => Row.mk p.1 p.2.status.toStr p.2.timestamp p.2.data) := by
  induction results with
  | nil => intro acc; simp
  | cons q rest ih => intro acc; simp [ih]

/-- The summary table is one row per results entry, in iteration order. -/
lemma create_summary_table_eq (results : List (String × Outcome)) :
    create_summary_table results
      = results.map (fun p => Row.mk p.1 p.2.status.toStr p.2.timestamp p.2.data) := by
  simpa using create_summary_table_aux results []

lemma combined_text_aux (results : List (String × Outcome)) :
    ∀ t : String,
      results.foldl (fun t p =>
        t ++ ("FACTURA: " ++ p.1 ++ "\n")
          ++ ("Estado: " ++ p.2.status.toStr ++ "\n")
          ++ (sepLine '-' ++ "\n")
          ++ (p.2.data ++ "\n")
          ++ (sepLine '=' ++ "\n\n")) t
      = t ++ concatAll (results.map entrySection) := by
  induction results with
  | nil => intro t; simp [concatAll, String.append_empty]
  | cons q rest ih =>
    intro t
    simp only [List.foldl_cons, List.map_cons, concatAll]
    rw [ih]
    simp [entrySection, String.append_assoc]

/-- The report text is the header followed by the per-outcome sections in
the dict's iteration order. -/
lemma combined_text_eq (processed_at : String) (results : List (String × Outcome)) :
    combined_text processed_at results
      = reportHeader processed_at ++ concatAll (results.map entrySection) := by
  show results.foldl _ _ = _
  rw [combined_text_aux]
  simp [reportHeader, String.append_assoc]

/-! ### Claim C2 -/

/-- Claim C2: for every non-empty set of N PDF files (their filenames are
distinct, as directory enumeration yields), `process_all_invoices` returns
a result mapping with exactly N entries whose keys are those N filenames. -/
theorem batch_run_has_one_entry_per_file (extract : Extractor) (ts : Nat → String)
    (folder : String) (pdf_files : List String)
    (hne : pdf_files ≠ []) (hnd : pdf_files.Nodup) :
    ∃ res, process_all_invoices extract ts folder pdf_files = some res ∧
      res.length = pdf_files.length ∧ res.map Prod.fst = pdf_files :=
  ⟨batchResults extract ts folder pdf_files, process_eq extract ts folder hne hnd,
    batchResults_length extract ts folder pdf_files,
    batchResults_map_fst extract ts folder pdf_files⟩

/-- Witness for C2 at a concrete two-file input. -/
theorem batch_run_has_one_entry_per_file_witness :
    ∃ res, process_all_invoices (fun _ => Except.ok "IVA 19%")
        (fun _ => "2026-10-12 00:00:00") "facturas" ["a.pdf", "b.pdf"] = some res ∧
      res.length = (["a.pdf", "b.pdf"] : List String).length ∧
      res.map Prod.fst = ["a.pdf", "b.pdf"] :=
  batch_run_has_one_entry_per_file _ _ _ _ (by decide) (by decide)

/-! ### Claim C5 -/

/-- Claim C5: an empty file set yields the distinct nothing-to-process
signal `none` (the early `return None`), never an empty mapping, while any
non-empty file set yields `some` result mapping. -/
theorem empty_folder_returns_none (extract : Extractor) (ts : Nat → String)
    (folder : String) :
    process_all_invoices extract ts folder [] = none ∧
    ∀ pdf_files : List String, pdf_files ≠ [] →
      (process_all_invoices extract ts folder pdf_files).isSome := by
  refine ⟨rfl, fun pdf_files h => ?_⟩
  obtain ⟨a, l, rfl⟩ := List.exists_cons_of_ne_nil h
  simp [process_all_invoices]

/-- Witness for C5: the empty folder and a concrete one-file folder. -/
theorem empty_folder_returns_none_witness :
    process_all_invoices (fun _ => Except.ok "x") (fun _ => "t") "facturas" [] = none ∧
    (process_all_invoices (fun _ => Except.ok "x") (fun _ => "t") "facturas"
      ["a.pdf"]).isSome :=
  ⟨(empty_folder_returns_none _ _ _).1,
   (empty_folder_returns_none (fun _ => Except.ok "x") (fun _ => "t") "facturas").2
     ["a.pdf"] (by decide)⟩

end Inicio

namespace Inicio

/-- The error payload `'Error: ' + str(e)` is never the empty string. -/
lemma error_data_ne_empty (e : String) : "Error: " ++ e ≠ "" := by
  intro hcontra
  have hlen := congrArg String.length hcontra
  rw [String.length_append] at hlen
  have h7 : ("Error: " : String).length = 7 := by decide
  have h0 : ("" : String).length = 0 := by decide
  omega

end Inicio

namespace Inicio

/-! ### Claim C1 -/

/-- Claim C1: every InvoiceFile given to the runner yields exactly one
outcome in the result mapping; an exception while extracting an item is
caught and recorded as that item's ERROR outcome; every item is attempted
(entry `i` of the mapping is file `i`'s outcome), so no per-item failure
aborts the run and no item is dropped. -/
theorem every_file_yields_exactly_one_outcome (extract : Extractor) (ts : Nat → String)
    (folder : String) (pdf_files : List String)
    (hne : pdf_files ≠ []) (hnd : pdf_files.Nodup) :
    ∃ res, process_all_invoices extract ts folder pdf_files = some res ∧
      res.length = pdf_files.length ∧
      (∀ name ∈ pdf_files, (res.map Prod.fst).count name = 1) ∧
      (∀ i, ∀ h : i < pdf_files.length, ∀ e,
        extract (pdfPath folder pdf_files[i]) = Except.error e →
        res[i]? = some (pdf_files[i],
          Outcome.mk Status.error ("Error: " ++ e) (ts i))) := by
  refine ⟨batchResults extract ts folder pdf_files,
    process_eq extract ts folder hne hnd,
    batchResults_length extract ts folder pdf_files, ?_, ?_⟩
  · intro name hname
    rw [batchResults_map_fst]
    exact List.count_eq_one_of_mem hnd hname
  · intro i h e he
    rw [batchResults_getElem? extract ts folder pdf_files h]
    simp [processFile, he]

/-- Witness for C1: two files, extraction raising on the second. -/
theorem every_file_yields_exactly_one_outcome_witness :
    ∃ res, process_all_invoices sampleExtract sampleTs "facturas" ["a.pdf", "b.pdf"]
        = some res ∧
      res.length = (["a.pdf", "b.pdf"] : List String).length ∧
      (∀ name ∈ (["a.pdf", "b.pdf"] : List String), (res.map Prod.fst).count name = 1) ∧
      (∀ i, ∀ h : i < (["a.pdf", "b.pdf"] : List String).length, ∀ e,
        sampleExtract (pdfPath "facturas" (["a.pdf", "b.pdf"] : List String)[i])
          = Except.error e →
        res[i]? = some ((["a.pdf", "b.pdf"] : List String)[i],
          Outcome.mk Status.error ("Error: " ++ e) (sampleTs i))) :=
  every_file_yields_exactly_one_outcome sampleExtract sampleTs "facturas"
    ["a.pdf", "b.pdf"] (by decide) (by decide)

/-! ### Claim C3 -/

/-- Claim C3: if the extraction client raises on every call, a run over N
files still returns normally with N outcomes, each with status ERROR, a
non-empty error description, and a timestamp (the one observed at its
index); there is no early abort. -/
theorem failing_extractor_still_returns_all_error_outcomes (extract : Extractor)
    (ts : Nat → String) (folder : String) (pdf_files : List String)
    (hne : pdf_files ≠ []) (hnd : pdf_files.Nodup)
    (hfail : ∀ path, ∃ e, extract path = Except.error e) :
    ∃ res, process_all_invoices extract ts folder pdf_files = some res ∧
      res.length = pdf_files.length ∧
      ∀ p ∈ res, p.2.status = Status.error ∧ p.2.data ≠ ""
        ∧ ∃ i, i < pdf_files.length ∧ p.2.timestamp = ts i := by
  refine ⟨batchResults extract ts folder pdf_files,
    process_eq extract ts folder hne hnd,
    batchResults_length extract ts folder pdf_files, ?_⟩
  intro p hp
  obtain ⟨i, hi, rfl⟩ := batchResults_mem extract ts folder pdf_files hp
  obtain ⟨e, he⟩ := hfail (pdfPath folder pdf_files[i])
  refine ⟨by simp [processFile, he], ?_, i, hi, by simp [processFile, he]⟩
  simpa [processFile, he] using error_data_ne_empty e

/-- Witness for C3: three files, client raising on every call. -/
theorem failing_extractor_still_returns_all_error_outcomes_witness :
    ∃ res, process_all_invoices failingExtract sampleTs "facturas"
        ["a.pdf", "b.pdf", "c.pdf"] = some res ∧
      res.length = (["a.pdf", "b.pdf", "c.pdf"] : List String).length ∧
      ∀ p ∈ res, p.2.status = Status.error ∧ p.2.data ≠ ""
        ∧ ∃ i, i < (["a.pdf", "b.pdf", "c.pdf"] : List String).length
            ∧ p.2.timestamp = sampleTs i :=
  failing_extractor_still_returns_all_error_outcomes failingExtract sampleTs "facturas"
    ["a.pdf", "b.pdf", "c.pdf"] (by decide) (by decide)
    (fun path => ⟨"invalid x-api-key", rfl⟩)

end Inicio

namespace Inicio

/-! ### Claim C7 -/

/-- Claim C7: the text-report transformation is deterministic — applied
twice to the same results dict and `processed_at` timestamp it produces
byte-identical text — and that text is a header carrying the
`processed_at` timestamp followed by one section per outcome. -/
theorem report_text_deterministic_header_then_sections
    (processed_at : String) (results : List (String × Outcome)) :
    combined_text processed_at results = combined_text processed_at results ∧
    combined_text processed_at results
      = reportHeader processed_at ++ concatAll (results.map entrySection) :=
  ⟨rfl, combined_text_eq processed_at results⟩

/-! ### Claim C8 -/

/-- Claim C8: the tabular export has exactly one row per outcome, each row
built from the entry's filename, status, timestamp and payload (the four
columns of `Row`); its row count equals the mapping's size and each row's
filename occurs exactly once among the mapping's keys. -/
theorem summary_table_one_row_per_outcome (results : List (String × Outcome))
    (hnd : (results.map Prod.fst).Nodup) :
    (create_summary_table results).length = results.length ∧
    create_summary_table results
      = results.map (fun p => Row.mk p.1 p.2.status.toStr p.2.timestamp p.2.data) ∧
    ∀ row ∈ create_summary_table results,
      (results.map Prod.fst).count row.factura = 1 := by
  refine ⟨by simp [create_summary_table_eq], create_summary_table_eq results, ?_⟩
  intro row hrow
  rw [create_summary_table_eq] at hrow
  obtain ⟨p, hp, rfl⟩ := List.mem_map.mp hrow
  exact List.count_eq_one_of_mem hnd (List.mem_map_of_mem Prod.fst hp)

/-- Witness for C8 at a concrete two-entry results dict. -/
theorem summary_table_one_row_per_outcome_witness :
    (create_summary_table sampleResults).length = sampleResults.length ∧
    create_summary_table sampleResults
      = sampleResults.map (fun p => Row.mk p.1 p.2.status.toStr p.2.timestamp p.2.data) ∧
    ∀ row ∈ create_summary_table sampleResults,
      (sampleResults.map Prod.fst).count row.factura = 1 :=
  summary_table_one_row_per_outcome sampleResults (by decide)

end Inicio

namespace Inicio

/-! ### Claim C6 -/

/-- Claim C6: outcomes are recorded in the result mapping in the order the
files were enumerated, and the downstream iterations — table rows, report
sections and result tabs — visit the entries in that same insertion
order. -/
theorem outcomes_and_exports_preserve_enumeration_order (extract : Extractor)
    (ts : Nat → String) (folder : String) (pdf_files : List String)
    (processed_at : String) (hne : pdf_files ≠ []) (hnd : pdf_files.Nodup) :
    ∃ res, process_all_invoices extract ts folder pdf_files = some res ∧
      res.map Prod.fst = pdf_files ∧
      (create_summary_table res).map Row.factura = pdf_files ∧
      combined_text processed_at res
        = reportHeader processed_at ++ concatAll (res.map entrySection) ∧
      resultTabs res = pdf_files.map tabLabel := by
  refine ⟨batchResults extract ts folder pdf_files,
    process_eq extract ts folder hne hnd,
    batchResults_map_fst extract ts folder pdf_files, ?_,
    combined_text_eq processed_at _, ?_⟩
  · rw [create_summary_table_eq, List.map_map]
    exact batchResults_map_fst extract ts folder pdf_files
  · conv_rhs => rw [← batchResults_map_fst extract ts folder pdf_files]
    rw [List.map_map]
    rfl

/-- Witness for C6 at a concrete two-file input. -/
theorem outcomes_and_exports_preserve_enumeration_order_witness :
    ∃ res, process_all_invoices sampleExtract sampleTs "facturas" ["a.pdf", "b.pdf"]
        = some res ∧
      res.map Prod.fst = ["a.pdf", "b.pdf"] ∧
      (create_summary_table res).map Row.factura = ["a.pdf", "b.pdf"] ∧
      combined_text "2026-10-12 10:00:00" res
        = reportHeader "2026-10-12 10:00:00" ++ concatAll (res.map entrySection) ∧
      resultTabs res = (["a.pdf", "b.pdf"] : List String).map tabLabel :=
  outcomes_and_exports_preserve_enumeration_order sampleExtract sampleTs "facturas"
    ["a.pdf", "b.pdf"] "2026-10-12 10:00:00" (by decide) (by decide)

/-! ### Claim C9 -/

/-- Writing a file then reading it back at the same path yields exactly the
written bytes. -/
lemma fsRead_fsWrite (path : String) (content : List Nat) :
    ∀ fs : FileSystem, fsRead (fsWrite fs path content) path = some content := by
  intro fs
  induction fs with
  | nil => simp [fsWrite, fsRead]
  | cons q rest ih =>
    by_cases hq : q.1 = path
    · simp [fsWrite, fsRead, hq]
    · simpa [fsWrite, fsRead, hq] using ih

/-- Claim C9: an ad-hoc uploaded document is first written into the
configured PDF directory under its own name (reading the saved path back
gives the uploaded bytes), and is then processed through the same
extraction client applied to the saved path — exactly the call from which
the batch runner builds the outcome of a discovered file of that name. -/
theorem uploaded_file_saved_then_extracted_same_path (extract : Extractor)
    (fs : FileSystem) (folder name : String) (content : List Nat) :
    fsRead (handle_uploaded_file extract fs folder name content).1
        (pdfPath folder name) = some content ∧
    (handle_uploaded_file extract fs folder name content).2
        = extract (pdfPath folder name) ∧
    ∀ tsNow : String, processFile extract tsNow folder name
      = match (handle_uploaded_file extract fs folder name content).2 with
        | Except.ok r => ⟨Status.success, r, tsNow⟩
        | Except.error e => ⟨Status.error, "Error: " ++ e, tsNow⟩ :=
  ⟨fsRead_fsWrite (pdfPath folder name) content fs, rfl, fun _ => rfl⟩

/-! ### Claim C10 -/

/-- Claim C10: every outcome record the runner produces — on success and on
error alike — is an `Outcome` with exactly the fields status, data and
timestamp, status drawn from success/error, and on error a data string
`'Error: '` followed by the exception message, hence non-empty; the report
and table builders consume any runner output through exactly those three
fields. -/
theorem outcome_records_shape_and_builders_total (extract : Extractor)
    (ts : Nat → String) (folder : String) (pdf_files : List String)
    (processed_at : String) (hne : pdf_files ≠ []) (hnd : pdf_files.Nodup) :
    ∃ res, process_all_invoices extract ts folder pdf_files = some res ∧
      (∀ p ∈ res,
        p.2 = Outcome.mk p.2.status p.2.data p.2.timestamp ∧
        (p.2.status = Status.success ∨ p.2.status = Status.error) ∧
        (p.2.status = Status.error →
          ∃ e, extract (pdfPath folder p.1) = Except.error e ∧
            p.2.data = "Error: " ++ e ∧ p.2.data ≠ "")) ∧
      create_summary_table res
        = res.map (fun p => Row.mk p.1 p.2.status.toStr p.2.timestamp p.2.data) ∧
      combined_text processed_at res
        = reportHeader processed_at ++ concatAll (res.map entrySection) := by
  refine ⟨batchResults extract ts folder pdf_files,
    process_eq extract ts folder hne hnd, ?_,
    create_summary_table_eq _, combined_text_eq processed_at _⟩
  intro p hp
  obtain ⟨i, hi, rfl⟩ := batchResults_mem extract ts folder pdf_files hp
  refine ⟨rfl, ?_, ?_⟩
  · cases hcall : extract (pdfPath folder pdf_files[i]) <;> simp [processFile, hcall]
  · intro hstat
    cases hcall : extract (pdfPath folder pdf_files[i]) with
    | ok r => simp [processFile, hcall] at hstat
    | error e =>
      refine ⟨e, rfl, by simp [processFile, hcall], ?_⟩
      simpa [processFile, hcall] using error_data_ne_empty e

/-- Witness for C10: two files, extraction raising on the second. -/
theorem outcome_records_shape_and_builders_total_witness :
    ∃ res, process_all_invoices sampleExtract sampleTs "facturas" ["a.pdf", "b.pdf"]
        = some res ∧
      (∀ p ∈ res,
        p.2 = Outcome.mk p.2.status p.2.data p.2.timestamp ∧
        (p.2.status = Status.success ∨ p.2.status = Status.error) ∧
        (p.2.status = Status.error →
          ∃ e, sampleExtract (pdfPath "facturas" p.1) = Except.error e ∧
            p.2.data = "Error: " ++ e ∧ p.2.data ≠ "")) ∧
      create_summary_table res
        = res.map (fun p => Row.mk p.1 p.2.status.toStr p.2.timestamp p.2.data) ∧
      combined_text "2026-10-12 10:00:00" res
        = reportHeader "2026-10-12 10:00:00" ++ concatAll (res.map entrySection) :=
  outcome_records_shape_and_builders_total sampleExtract sampleTs "facturas"
    ["a.pdf", "b.pdf"] "2026-10-12 10:00:00" (by decide) (by decide)

end Inicio

namespace Inicio

/-! ### Claim C4 -/

/-- The run's event trace is the per-item three-event blocks, in
enumeration order. -/
lemma runEvents_eq (extract : Extractor) (ts : Nat → String) (folder : String)
    (pdf_files : List String) :
    runEvents extract ts folder pdf_files
      = pdf_files.enum.flatMap (itemEvents extract ts folder pdf_files.length) := by
  unfold runEvents
  exact runLoop_snd extract ts folder pdf_files.length pdf_files.enum []

/-- Each item block contributes exactly its 1-based index to the
notification index list. -/
lemma statusIndices_flatMap (extract : Extractor) (ts : Nat → String) (folder : String)
    (total : Nat) (l : List (Nat × String)) :
    statusIndices (l.flatMap (itemEvents extract ts folder total))
      = l.map (fun p => p.1 + 1) := by
  induction l with
  | nil => rfl
  | cons q rest ih =>
    unfold statusIndices at ih ⊢
    rw [List.flatMap_cons, List.filterMap_append, ih]
    rfl

/-- Mapping successor over `range n` gives the interval `1..n`. -/
lemma range_map_succ (n : Nat) :
    (List.range n).map (fun i => i + 1) = List.range' 1 n := by
  rw [List.range'_eq_map_range]
  exact List.map_congr_left (fun i _ => Nat.add_comm i 1)

/-- In the block trace, item `i`'s notification sits at position `3i` and
its insertion at position `3i + 1`. -/
lemma flatMap_itemEvents_getElem? (extract : Extractor) (ts : Nat → String)
    (folder : String) (total : Nat) (l : List (Nat × String)) :
    ∀ i, ∀ h : i < l.length,
      (l.flatMap (itemEvents extract ts folder total))[3 * i]?
          = some (Event.statusText (l[i].2) (l[i].1 + 1) total) ∧
      (l.flatMap (itemEvents extract ts folder total))[3 * i + 1]?
          = some (Event.insertOutcome (l[i].2)
              (processFile extract (ts (l[i].1)) folder (l[i].2))) := by
  induction l with
  | nil => intro i h; exact absurd h (Nat.not_lt_zero i)
  | cons q rest ih =>
    intro i h
    obtain ⟨idx, name⟩ := q
    have hsplit : (((idx, name) :: rest).flatMap (itemEvents extract ts folder total))
        = Event.statusText name (idx + 1) total ::
          Event.insertOutcome name (processFile extract (ts idx) folder name) ::
          Event.progressBar (idx + 1) total ::
          rest.flatMap (itemEvents extract ts folder total) := rfl
    cases i with
    | zero => constructor <;> rfl
    | succ j =>
      have hj : j < rest.length := by simpa using h
      have hrest := ih j hj
      have e1 : 3 * (j + 1) = 3 * j + 1 + 1 + 1 := by ring
      have e2 : 3 * (j + 1) + 1 = (3 * j + 1) + 1 + 1 + 1 := by ring
      constructor
      · rw [hsplit, e1]
        simpa using hrest.1
      · rw [hsplit, e2]
        simpa using hrest.2

/-- Claim C4: a run over N files emits exactly N progress notifications,
carrying indices 1..N in strictly increasing order with no gaps, and the
notification for file `i` precedes the insertion of file `i`'s outcome in
the trace. -/
theorem progress_notifications_count_order_precede_insertion (extract : Extractor)
    (ts : Nat → String) (folder : String) (pdf_files : List String) :
    (statusIndices (runEvents extract ts folder pdf_files)).length
        = pdf_files.length ∧
    statusIndices (runEvents extract ts folder pdf_files)
        = List.range' 1 pdf_files.length ∧
    ∀ i, ∀ h : i < pdf_files.length, ∃ p q : Nat, p < q ∧
      (runEvents extract ts folder pdf_files)[p]?
        = some (Event.statusText pdf_files[i] (i + 1) pdf_files.length) ∧
      (runEvents extract ts folder pdf_files)[q]?
        = some (Event.insertOutcome pdf_files[i]
            (processFile extract (ts i) folder pdf_files[i])) := by
  have h2 : statusIndices (runEvents extract ts folder pdf_files)
      = List.range' 1 pdf_files.length := by
    rw [runEvents_eq, statusIndices_flatMap]
    have hmm : pdf_files.enum.map (fun p => p.1 + 1)
        = (pdf_files.enum.map Prod.fst).map (fun i => i + 1) := by
      rw [List.map_map]; rfl
    rw [hmm, List.enum_map_fst, range_map_succ]
  refine ⟨by rw [h2]; exact List.length_range' 1 1 pdf_files.length, h2, ?_⟩
  intro i h
  have hi : i < pdf_files.enum.length := by simpa [List.enum_length] using h
  have hb := flatMap_itemEvents_getElem? extract ts folder pdf_files.length
    pdf_files.enum i hi
  have he : pdf_files.enum[i] = (i, pdf_files[i]) := List.getElem_enum pdf_files i hi
  refine ⟨3 * i, 3 * i + 1, by omega, ?_, ?_⟩
  · rw [runEvents_eq, hb.1, he]
  · rw [runEvents_eq, hb.2, he]

end Inicio

namespace Inicio

/-- Witness for C4 at a concrete two-file input. -/
theorem progress_notifications_count_order_precede_insertion_witness :
    (statusIndices (runEvents sampleExtract sampleTs "facturas" ["a.pdf", "b.pdf"])).length
        = (["a.pdf", "b.pdf"] : List String).length ∧
    statusIndices (runEvents sampleExtract sampleTs "facturas" ["a.pdf", "b.pdf"])
        = List.range' 1 (["a.pdf", "b.pdf"] : List String).length ∧
    ∀ i, ∀ h : i < (["a.pdf", "b.pdf"] : List String).length, ∃ p q : Nat, p < q ∧
      (runEvents sampleExtract sampleTs "facturas" ["a.pdf", "b.pdf"])[p]?
        = some (Event.statusText (["a.pdf", "b.pdf"] : List String)[i] (i + 1)
            (["a.pdf", "b.pdf"] : List String).length) ∧
      (runEvents sampleExtract sampleTs "facturas" ["a.pdf", "b.pdf"])[q]?
        = some (Event.insertOutcome (["a.pdf", "b.pdf"] : List String)[i]
            (processFile sampleExtract (sampleTs i) "facturas"
              (["a.pdf", "b.pdf"] : List String)[i])) :=
  progress_notifications_count_order_precede_insertion sampleExtract sampleTs
    "facturas" ["a.pdf", "b.pdf"]

end Inicio
